import Mathlib

/-!
Shallow embedding of the tiered-cache and admission subsystem of the
`coolify-og-image-gen` service (`src/utils/cache-manager.ts`,
`src/middleware/rate-limit.ts`, the `/og` route and the `/cache`
administrative routes).

Modelling conventions:
* Time is `Nat` milliseconds (`Date.now()`).
* Image buffers are abstracted as `Nat` payload identifiers; the code never
  inspects buffer contents on the cache paths.
* A JavaScript `Map` is a key-unique association list in insertion order:
  `set` on an existing key updates it in place, `set` on a new key appends,
  `delete` removes, iteration follows insertion order.
* The on-disk cache directory is an association list from file name to
  `{content, mtime}`; `fs.writeFile` sets `mtime` to the current time.
-/

namespace OgImageGen

/-- Configuration constants of `cache-manager.ts` (lines 6–9).  Each is
`Number(process.env.X) || default`. -/
structure Config where
  CACHE_TTL : Nat := 86400
  HTTP_CACHE_TTL : Nat := 86400
  MAX_RAM_CACHE_SIZE : Nat := 100
  SHORT_CACHE_TTL : Nat := 300
deriving DecidableEq

/-- `RamCacheEntry` (cache-manager.ts lines 12–16): buffer, creation
timestamp (ms), and per-entry TTL in seconds. -/
structure RamCacheEntry where
  buffer : Nat
  timestamp : Nat
  ttl : Nat
deriving DecidableEq

/-- A file in the disk cache directory: raw content plus modification time. -/
structure DiskFile where
  content : Nat
  mtime : Nat
deriving DecidableEq

/-- Lookup in a JavaScript `Map` (first matching key; keys are unique in any
reachable map state). -/
def mapGet {α : Type} : List (String × α) → String → Option α
  | [], _ => none
  | p :: tl, k => if p.1 = k then some p.2 else mapGet tl k

/-- `Map.prototype.set`: update the first occurrence in place, else append
(insertion order preserved, as JavaScript maps do). -/
def mapSet {α : Type} : List (String × α) → String → α → List (String × α)
  | [], k, v => [(k, v)]
  | p :: tl, k, v => if p.1 = k then (k, v) :: tl else p :: mapSet tl k v

/-- `Map.prototype.delete` / `fs.unlink`: remove the key. -/
def mapDelete {α : Type} (m : List (String × α)) (k : String) : List (String × α) :=
  m.filter (fun p => !(decide (p.1 = k)))

/-- The whole cache state: RAM map plus disk directory. -/
structure CacheState where
  ram : List (String × RamCacheEntry)
  disk : List (String × DiskFile)
deriving DecidableEq

/-- One character of `key.replace(/[^a-zA-Z0-9\-_]/g, "_")`. -/
def sanitize_char (c : Char) : Char :=
  if c.isAlphanum || c = '-' || c = '_' then c else '_'

/-- `cache_key.replace(/[^a-zA-Z0-9\-_]/g, "_")`, the on-disk base name
(character-wise map over the string's characters). -/
def sanitize (key : String) : String :=
  String.mk (key.data.map sanitize_char)

/-- `get_from_disk_cache` (cache-manager.ts lines 54–86).  Probes the `.jpg`
file first; if it exists and is fresh (`age <= CACHE_TTL*1000`) its content is
returned.  If it exists but is expired it is unlinked, after which the
re-`stat` of the same path throws and the outer catch returns null (the
legacy `.png` is *not* probed in that case).  Only when the `.jpg` is absent
is the `.png` probed, with the same age check and expired-file cleanup.
Returns the result together with the (possibly pruned) directory. -/
def get_from_disk_cache (cfg : Config) (disk : List (String × DiskFile))
    (key : String) (now : Nat) : Option Nat × List (String × DiskFile) :=
  let base := sanitize key
  match mapGet disk (base ++ ".jpg") with
  | some f =>
    if now - f.mtime ≤ cfg.CACHE_TTL * 1000 then (some f.content, disk)
    else (none, mapDelete disk (base ++ ".jpg"))
  | none =>
    match mapGet disk (base ++ ".png") with
    | some f =>
      if now - f.mtime > cfg.CACHE_TTL * 1000 then (none, mapDelete disk (base ++ ".png"))
      else (some f.content, disk)
    | none => (none, disk)

/-- `save_to_disk_cache` (cache-manager.ts lines 88–101): write
`<sanitized>.jpg`; the file's modification time becomes the current time. -/
def save_to_disk_cache (disk : List (String × DiskFile)) (key : String)
    (buffer : Nat) (now : Nat) : List (String × DiskFile) :=
  mapSet disk (sanitize key ++ ".jpg") ⟨buffer, now⟩

/-- The RAM-tier read step of `get_cached_image` (cache-manager.ts lines
107–115): return the entry while `age < ttl*1000` (strict), otherwise delete
it and miss. -/
def ram_get (ram : List (String × RamCacheEntry)) (key : String) (now : Nat) :
    Option RamCacheEntry × List (String × RamCacheEntry) :=
  match mapGet ram key with
  | some e =>
    if now - e.timestamp < e.ttl * 1000 then (some e, ram)
    else (none, mapDelete ram key)
  | none => (none, ram)

/-- Provenance of a cache hit (`source: "ram" | "disk"`). -/
inductive Source
  | ram
  | disk
deriving DecidableEq

/-- `get_cached_image` (cache-manager.ts lines 103–130): RAM first; on RAM
miss consult the disk tier and, on a disk hit, promote into RAM with the
standard `CACHE_TTL` and a fresh timestamp. -/
def get_cached_image (cfg : Config) (s : CacheState) (key : String) (now : Nat) :
    Option (Nat × Source) × CacheState :=
  let r := ram_get s.ram key now
  match r.1 with
  | some e => (some (e.buffer, Source.ram), { s with ram := r.2 })
  | none =>
    let d := get_from_disk_cache cfg s.disk key now
    match d.1 with
    | some b =>
      (some (b, Source.disk),
        { ram := mapSet r.2 key ⟨b, now, cfg.CACHE_TTL⟩, disk := d.2 })
    | none => (none, { ram := r.2, disk := d.2 })

/-- `cache_image` (cache-manager.ts lines 132–143): always write the RAM
tier with `CACHE_TTL` when authorized and `SHORT_CACHE_TTL` otherwise; write
the disk tier only when authorized. -/
def cache_image (cfg : Config) (s : CacheState) (key : String) (buffer : Nat)
    (now : Nat) (authorized : Bool) : CacheState :=
  let ttl := if authorized then cfg.CACHE_TTL else cfg.SHORT_CACHE_TTL
  { ram := mapSet s.ram key ⟨buffer, now, ttl⟩,
    disk :=
      if authorized then save_to_disk_cache s.disk key buffer now else s.disk }

/-- Stable insertion of an entry in ascending-timestamp order; an inserted
element goes before the first strictly later element, so earlier list
positions win timestamp ties. -/
def sort_insert (x : String × RamCacheEntry) :
    List (String × RamCacheEntry) → List (String × RamCacheEntry)
  | [] => [x]
  | y :: ys =>
    if x.2.timestamp ≤ y.2.timestamp then x :: y :: ys else y :: sort_insert x ys

/-- The `Array.from(...).sort(([, a], [, b]) => a.timestamp - b.timestamp)`
of `cleanup_cache`.  JavaScript `Array.prototype.sort` is required to be
stable, and a stable sort by a total preorder is extensionally unique, so a
stable insertion sort models it exactly. -/
def sort_by_timestamp : List (String × RamCacheEntry) → List (String × RamCacheEntry)
  | [] => []
  | x :: xs => sort_insert x (sort_by_timestamp xs)

/-- The first phase of `cleanup_cache` (lines 34–38): delete every entry
whose own TTL has elapsed (`now - entry.timestamp > entry.ttl * 1000`),
leaving exactly the unexpired entries in order. -/
def unexpired_entries (ram : List (String × RamCacheEntry)) (now : Nat) :
    List (String × RamCacheEntry) :=
  ram.filter (fun p => !(decide (now - p.2.timestamp > p.2.ttl * 1000)))

/-- `cleanup_cache` (cache-manager.ts lines 30–51): first delete every entry
whose own TTL has elapsed; then, if the map is still above
`MAX_RAM_CACHE_SIZE`, sort the remaining entries by timestamp ascending and
delete the first `size - max` of them by key. -/
def cleanup_cache (cfg : Config) (ram : List (String × RamCacheEntry)) (now : Nat) :
    List (String × RamCacheEntry) :=
  let survivors := unexpired_entries ram now
  if survivors.length > cfg.MAX_RAM_CACHE_SIZE then
    let sorted := sort_by_timestamp survivors
    let to_remove := sorted.take (survivors.length - cfg.MAX_RAM_CACHE_SIZE)
    survivors.filter (fun p => !(to_remove.any (fun q => decide (q.1 = p.1))))
  else survivors

/-- Configuration of the fallback rate limiter (rate-limit.ts lines 58–59):
`RATE_LIMIT_WINDOW_MS || 60000` and `RATE_LIMIT_MAX_REQUESTS || 60`. -/
structure RateConfig where
  window_ms : Nat := 60000
  max_requests : Nat := 60
deriving DecidableEq

/-- Per-identity admission state (rate-limit.ts line 53):
`{ count, reset_time }`. -/
structure ClientData where
  count : Nat
  reset_time : Nat
deriving DecidableEq

/-- Outcome of one fallback-middleware invocation: `next()` (admit) or a 429
carrying `retry_after = Math.ceil((reset_time - now) / 1000)`. -/
inductive RateDecision
  | allow
  | reject (retry_after : Nat)
deriving DecidableEq

/-- `fallback_rate_limit_middleware` (rate-limit.ts lines 55–80) as a
state-passing function on the `request_counts` map: absent entry or window
elapsed ⇒ reset to `count = 1`, `reset_time = now + window_ms` and admit;
`count >= max` ⇒ reject with `ceil((reset_time - now)/1000)` leaving the map
untouched; otherwise increment the count in place and admit. -/
def fallback_rate_limit (cfg : RateConfig) (m : List (String × ClientData))
    (client_ip : String) (now : Nat) : RateDecision × List (String × ClientData) :=
  match mapGet m client_ip with
  | none => (RateDecision.allow, mapSet m client_ip ⟨1, now + cfg.window_ms⟩)
  | some d =>
    if now > d.reset_time then
      (RateDecision.allow, mapSet m client_ip ⟨1, now + cfg.window_ms⟩)
    else if d.count ≥ cfg.max_requests then
      (RateDecision.reject ((d.reset_time - now + 999) / 1000), m)
    else
      (RateDecision.allow, mapSet m client_ip ⟨d.count + 1, d.reset_time⟩)

/-- Fold a sequence of `(client_ip, now)` requests through the fallback
limiter, keeping only the map state. -/
def run_decides (cfg : RateConfig) (calls : List (String × Nat))
    (m : List (String × ClientData)) : List (String × ClientData) :=
  calls.foldl (fun m c => (fallback_rate_limit cfg m c.1 c.2).2) m

/-- The `/og` route's cache key (og-routes / server.ts):
`` `${title}-${author}-${website}-${theme}` ``. -/
def cache_key (title author website theme : String) : String :=
  title ++ "-" ++ author ++ "-" ++ website ++ "-" ++ theme

/-- The `max-age` (and `s-maxage`) value the `/og` route puts on a cache-hit
response (og route, hit branch): `authorized ? HTTP_CACHE_TTL :
SHORT_CACHE_TTL`, where `authorized` classifies the *current* request; `none`
when the lookup misses (the miss branch regenerates, out of scope here). -/
def og_hit_response_max_age (cfg : Config) (s : CacheState) (key : String)
    (now : Nat) (authorized : Bool) : Option Nat :=
  match (get_cached_image cfg s key now).1 with
  | some _ => some (if authorized then cfg.HTTP_CACHE_TTL else cfg.SHORT_CACHE_TTL)
  | none => none

/-- `require_auth` (cache-routes lines 9–15): the `Authorization` header must
be present and equal to `` `Bearer ${ADMIN_TOKEN}` `` (a missing or empty
header is falsy and rejected, which the equality test also rejects). -/
def require_auth (admin_token : String) (header : Option String) : Bool :=
  match header with
  | none => false
  | some t => decide (t = "Bearer " ++ admin_token)

/-- The three administrative operations of the `/cache` routes. -/
inductive AdminOp
  | clearAll
  | deleteOne (key : String)
  | status
deriving DecidableEq

/-- What an administrative response reveals: the HTTP status code, and (for
the status route) the key listings of both tiers. -/
structure AdminResponse where
  status_code : Nat
  ram_keys_disclosed : Option (List String)
  disk_keys_disclosed : Option (List String)
deriving DecidableEq

/-- JavaScript `String.prototype.endsWith`, computed on character lists. -/
def ends_with (f suffix : String) : Bool :=
  suffix.data.isSuffixOf f.data

/-- Filter used by the clear-all and status routes:
`f.endsWith(".png") || f.endsWith(".jpg") || f.endsWith(".jpeg")`. -/
def is_image_file (f : String) : Bool :=
  ends_with f ".png" || ends_with f ".jpg" || ends_with f ".jpeg"

/-- The `replace(/\.(png|jpg|jpeg)$/, "")` of the status route. -/
def strip_image_ext (f : String) : String :=
  if ends_with f ".jpeg" then String.mk (f.data.take (f.data.length - 5))
  else if ends_with f ".png" || ends_with f ".jpg" then
    String.mk (f.data.take (f.data.length - 4))
  else f

/-- `DELETE /cache/:key` body (cache-routes lines 41–80): delete the key from
RAM, then unlink `<sanitized>.jpg`; only if that fails (file absent) try the
legacy `<sanitized>.png`. -/
def handle_delete_one (s : CacheState) (key : String) : CacheState :=
  let jpg := sanitize key ++ ".jpg"
  let png := sanitize key ++ ".png"
  { ram := mapDelete s.ram key,
    disk :=
      if (mapGet s.disk jpg).isSome then mapDelete s.disk jpg
      else if (mapGet s.disk png).isSome then mapDelete s.disk png
      else s.disk }

/-- The `/cache` administrative surface (cache-routes.ts): the two DELETE
routes run behind `require_auth` and answer 401 before touching any tier when
the bearer check fails; `GET /cache` (status) is registered *without* the
auth middleware and always answers 200 with both tiers' key listings. -/
def admin_handle (admin_token : String) (header : Option String) (op : AdminOp)
    (s : CacheState) : AdminResponse × CacheState :=
  match op with
  | AdminOp.clearAll =>
    if require_auth admin_token header then
      (⟨200, none, none⟩,
        { ram := [], disk := s.disk.filter (fun p => !(is_image_file p.1)) })
    else (⟨401, none, none⟩, s)
  | AdminOp.deleteOne key =>
    if require_auth admin_token header then (⟨200, none, none⟩, handle_delete_one s key)
    else (⟨401, none, none⟩, s)
  | AdminOp.status =>
    (⟨200, some (s.ram.map Prod.fst),
      some (((s.disk.filter (fun p => is_image_file p.1)).map Prod.fst).map strip_image_ext)⟩,
      s)

/-! ### Basic lemmas about the map model -/

theorem mapGet_mapSet {α : Type} (m : List (String × α)) (k k' : String) (v : α) :
    mapGet (mapSet m k v) k' = if k = k' then some v else mapGet m k' := by
  induction m with
  | nil => simp [mapGet, mapSet]
  | cons p tl ih =>
    by_cases h : p.1 = k
    · by_cases h' : k = k' <;> simp [mapGet, mapSet, h, h']
    · by_cases h' : p.1 = k'
      · have hkk : ¬ k = k' := fun e => h (e ▸ h')
        have hkk' : ¬ k' = k := fun e => hkk e.symm
        simp [mapGet, mapSet, h, h', hkk, hkk']
      · simp [mapGet, mapSet, h, h', ih]

theorem mapGet_mapSet_self {α : Type} (m : List (String × α)) (k : String) (v : α) :
    mapGet (mapSet m k v) k = some v := by
  simp [mapGet_mapSet]

/-- After `cache_image`, a read within the entry's TTL window hits the RAM
tier with the stored buffer. -/
theorem get_after_cache_image (cfg : Config) (s : CacheState) (k : String)
    (p : Nat) (now now2 : Nat) (a : Bool)
    (h2 : now2 - now < (if a then cfg.CACHE_TTL else cfg.SHORT_CACHE_TTL) * 1000) :
    (get_cached_image cfg (cache_image cfg s k p now a) k now2).1
      = some (p, Source.ram) := by
  have h2' : now2 - now <
      if a = true then cfg.CACHE_TTL * 1000 else cfg.SHORT_CACHE_TTL * 1000 := by
    cases a <;> simpa using h2
  simp only [get_cached_image, cache_image, ram_get, mapGet_mapSet_self]
  simp [h2']

/-- A persistent-tier read misses (touching nothing) when neither the `.jpg`
nor the legacy `.png` file exists for the key. -/
theorem get_from_disk_cache_none (cfg : Config) (disk : List (String × DiskFile))
    (k : String) (t : Nat)
    (hjpg : mapGet disk (sanitize k ++ ".jpg") = none)
    (hpng : mapGet disk (sanitize k ++ ".png") = none) :
    get_from_disk_cache cfg disk k t = (none, disk) := by
  simp [get_from_disk_cache, hjpg, hpng]

/-! ### The claims -/

/-- C1.  Round-trip: storing a payload as trusted and reading it back at the
same or a later instant within the standard TTL yields the payload with
`source = ram` (the fast tier). -/
theorem round_trip_store_get (cfg : Config) (s : CacheState) (k : String)
    (p : Nat) (now now2 : Nat) (h1 : now ≤ now2)
    (h2 : now2 - now < cfg.CACHE_TTL * 1000) :
    (get_cached_image cfg (cache_image cfg s k p now true) k now2).1
      = some (p, Source.ram) :=
  get_after_cache_image cfg s k p now now2 true (by simpa using h2)

theorem round_trip_store_get_witness :
    (get_cached_image {} (cache_image {} ⟨[], []⟩ "k" 5 0 true) "k" 1).1
      = some (5, Source.ram) :=
  round_trip_store_get {} ⟨[], []⟩ "k" 5 0 1 (by decide) (by decide)

/-- C2.  Trust-gated persistence: an untrusted store for a key with no prior
persistent record writes nothing to the persistent tier — an independent
persistent-tier read at any instant still misses — while a read within the
short TTL in the same process hits the fast tier with the stored payload. -/
theorem trust_gated_persistence (cfg : Config) (s : CacheState) (k : String)
    (p : Nat) (now now2 t : Nat)
    (hjpg : mapGet s.disk (sanitize k ++ ".jpg") = none)
    (hpng : mapGet s.disk (sanitize k ++ ".png") = none)
    (h1 : now ≤ now2) (h2 : now2 - now < cfg.SHORT_CACHE_TTL * 1000) :
    (cache_image cfg s k p now false).disk = s.disk ∧
    (get_from_disk_cache cfg (cache_image cfg s k p now false).disk k t).1 = none ∧
    (get_cached_image cfg (cache_image cfg s k p now false) k now2).1
      = some (p, Source.ram) := by
  have hd : (cache_image cfg s k p now false).disk = s.disk := rfl
  refine ⟨hd, ?_, ?_⟩
  · rw [hd, get_from_disk_cache_none cfg s.disk k t hjpg hpng]
  · exact get_after_cache_image cfg s k p now now2 false (by simpa using h2)

theorem trust_gated_persistence_witness :
    (cache_image {} ⟨[], []⟩ "k" 5 0 false).disk = [] ∧
    (get_from_disk_cache {} (cache_image {} ⟨[], []⟩ "k" 5 0 false).disk "k" 9999).1
      = none ∧
    (get_cached_image {} (cache_image {} ⟨[], []⟩ "k" 5 0 false) "k" 7).1
      = some (5, Source.ram) :=
  trust_gated_persistence {} ⟨[], []⟩ "k" 5 0 7 9999
    (by decide) (by decide) (by decide) (by decide)

/-- C3.  Promotion: when a key is absent from the fast tier but its payload
sits unexpired in the persistent tier, `get_cached_image` answers the payload
with `source = disk`, inserts the key into the fast tier with the standard
(trusted-length) TTL and a fresh timestamp, and an immediately following
lookup answers the payload with `source = ram`. -/
theorem disk_promotion (cfg : Config) (s : CacheState) (k : String)
    (p m now : Nat)
    (hram : mapGet s.ram k = none)
    (hjpg : mapGet s.disk (sanitize k ++ ".jpg") = some ⟨p, m⟩)
    (hfresh : now - m ≤ cfg.CACHE_TTL * 1000)
    (hpos : 0 < cfg.CACHE_TTL) :
    (get_cached_image cfg s k now).1 = some (p, Source.disk) ∧
    mapGet (get_cached_image cfg s k now).2.ram k
      = some ⟨p, now, cfg.CACHE_TTL⟩ ∧
    (get_cached_image cfg (get_cached_image cfg s k now).2 k now).1
      = some (p, Source.ram) := by
  have hfresh' : ¬ (cfg.CACHE_TTL * 1000 < now - m) := by omega
  have key : get_cached_image cfg s k now
      = (some (p, Source.disk),
          ⟨mapSet s.ram k ⟨p, now, cfg.CACHE_TTL⟩, s.disk⟩) := by
    simp [get_cached_image, ram_get, hram, get_from_disk_cache, hjpg,
      Nat.le_of_not_lt hfresh']
  have hage : (0 : Nat) < cfg.CACHE_TTL * 1000 := by positivity
  refine ⟨by rw [key], ?_, ?_⟩
  · rw [key]
    exact mapGet_mapSet_self s.ram k ⟨p, now, cfg.CACHE_TTL⟩
  · rw [key]
    simp [get_cached_image, ram_get, mapGet_mapSet_self, Nat.sub_self, hage]

theorem disk_promotion_witness :
    (get_cached_image {} ⟨[], [("k.jpg", ⟨5, 0⟩)]⟩ "k" 100).1
      = some (5, Source.disk) ∧
    mapGet (get_cached_image {} ⟨[], [("k.jpg", ⟨5, 0⟩)]⟩ "k" 100).2.ram "k"
      = some ⟨5, 100, 86400⟩ ∧
    (get_cached_image {}
        (get_cached_image {} ⟨[], [("k.jpg", ⟨5, 0⟩)]⟩ "k" 100).2 "k" 100).1
      = some (5, Source.ram) :=
  disk_promotion {} ⟨[], [("k.jpg", ⟨5, 0⟩)]⟩ "k" 5 0 100
    (by decide) (by decide) (by decide) (by decide)

/-- C6, counterexample.  The claim says an entry whose age is exactly
`ttl_seconds * 1000` is still returned (boundary `now - created_at <=
ttl*1000`).  The code's check is strict (`age < ttl*1000`): at age exactly
`1000` ms with `ttl = 1` s the read removes the entry and misses. -/
theorem fast_tier_boundary_counterexample :
    (1000 : Nat) - 0 = 1 * 1000 ∧
    (ram_get [("k", ⟨7, 0, 1⟩)] "k" 1000).1 ≠ some ⟨7, 0, 1⟩ ∧
    ram_get [("k", ⟨7, 0, 1⟩)] "k" 1000 = (none, []) := by
  refine ⟨rfl, by decide, by decide⟩

/-- C6, amended.  Fast-tier expiry boundary: a present entry is returned
exactly when `now - created_at < ttl_seconds * 1000` (strict); when the age
reaches `ttl_seconds * 1000` or more — in particular at exactly
`ttl_seconds * 1000` — the read removes the entry and the fast tier misses. -/
theorem fast_tier_expiry_boundary (ram : List (String × RamCacheEntry))
    (k : String) (now : Nat) (e : RamCacheEntry)
    (he : mapGet ram k = some e) :
    (ram_get ram k now = (some e, ram) ↔ now - e.timestamp < e.ttl * 1000) ∧
    (e.ttl * 1000 ≤ now - e.timestamp →
      ram_get ram k now = (none, mapDelete ram k)) := by
  constructor
  · constructor
    · intro h
      by_contra hage
      simp [ram_get, he, hage] at h
    · intro hage
      simp [ram_get, he, hage]
  · intro hage
    have : ¬ (now - e.timestamp < e.ttl * 1000) := by omega
    simp [ram_get, he, this]

theorem fast_tier_expiry_boundary_witness :
    ram_get [("k", ⟨7, 0, 1⟩)] "k" 500 = (some ⟨7, 0, 1⟩, [("k", ⟨7, 0, 1⟩)]) :=
  (fast_tier_expiry_boundary [("k", ⟨7, 0, 1⟩)] "k" 500 ⟨7, 0, 1⟩
    (by decide)).1.mpr (by decide)

/-- C7, counterexample.  The claim says the `max-age` of a cache-hit response
equals the TTL that was applied to the cached entry (short for an
untrusted-stored entry).  Storing untrusted applies TTL `300`, yet an
authorized request hitting that entry is answered with `max-age 86400`: the
header follows the current request's authorization, not the stored TTL. -/
theorem response_max_age_counterexample :
    mapGet (cache_image {} ⟨[], []⟩ "k" 5 0 false).ram "k" = some ⟨5, 0, 300⟩ ∧
    og_hit_response_max_age {} (cache_image {} ⟨[], []⟩ "k" 5 0 false) "k" 0 true
      = some 86400 ∧
    (86400 : Nat) ≠ 300 := by
  refine ⟨by decide, by decide, by decide⟩

/-- C7, amended.  For every `/og` response produced from a cache hit, the
`Cache-Control` `max-age` equals `HTTP_CACHE_TTL` when the *current request*
comes from an authorized origin and `SHORT_CACHE_TTL` otherwise, regardless
of the trust tier under which the entry was stored (note also that the
trusted header value is `HTTP_CACHE_TTL`, a configuration value distinct
from the storage TTL `CACHE_TTL`). -/
theorem response_max_age_from_request_auth (cfg : Config) (s : CacheState)
    (k : String) (p : Nat) (now now2 : Nat) (stored_trusted req_authorized : Bool)
    (h2 : now2 - now <
      (if stored_trusted then cfg.CACHE_TTL else cfg.SHORT_CACHE_TTL) * 1000) :
    og_hit_response_max_age cfg (cache_image cfg s k p now stored_trusted) k
        now2 req_authorized
      = some (if req_authorized then cfg.HTTP_CACHE_TTL else cfg.SHORT_CACHE_TTL) := by
  have hhit := get_after_cache_image cfg s k p now now2 stored_trusted h2
  simp [og_hit_response_max_age, hhit]

theorem response_max_age_from_request_auth_witness :
    og_hit_response_max_age {} (cache_image {} ⟨[], []⟩ "k" 5 0 false) "k" 0 true
      = some 86400 :=
  response_max_age_from_request_auth {} ⟨[], []⟩ "k" 5 0 0 false true (by decide)

/-- C8, counterexample.  The claim says every administrative operation —
including status — answers 401 without a bearer credential and discloses no
tier contents.  The status route is registered without the auth middleware:
with no credential it answers 200 and discloses both tiers' key listings. -/
theorem admin_status_counterexample :
    (admin_handle "secret" none AdminOp.status
        ⟨[("k", ⟨7, 0, 86400⟩)], [("k.jpg", ⟨7, 0⟩)]⟩).1.status_code = 200 ∧
    (admin_handle "secret" none AdminOp.status
        ⟨[("k", ⟨7, 0, 86400⟩)], [("k.jpg", ⟨7, 0⟩)]⟩).1.ram_keys_disclosed
      = some ["k"] ∧
    (admin_handle "secret" none AdminOp.status
        ⟨[("k", ⟨7, 0, 86400⟩)], [("k.jpg", ⟨7, 0⟩)]⟩).1.disk_keys_disclosed
      = some ["k"] := by
  refine ⟨by decide, by decide, by decide⟩

/-- C8, amended.  Clear-all and delete-one, invoked without a bearer
credential equal to the configured secret, are rejected with 401 before
reading or mutating either tier, leaving both tiers unchanged and disclosing
nothing; the status operation, however, requires no credential: it answers
200 to any caller, disclosing both tiers' key listings (without mutating
either tier). -/
theorem admin_auth_gate (secret : String) (hdr : Option String)
    (s : CacheState) (k : String)
    (hbad : require_auth secret hdr = false) :
    admin_handle secret hdr AdminOp.clearAll s = (⟨401, none, none⟩, s) ∧
    admin_handle secret hdr (AdminOp.deleteOne k) s = (⟨401, none, none⟩, s) ∧
    (admin_handle secret hdr AdminOp.status s).2 = s ∧
    (admin_handle secret hdr AdminOp.status s).1.status_code = 200 ∧
    (admin_handle secret hdr AdminOp.status s).1.ram_keys_disclosed
      = some (s.ram.map Prod.fst) := by
  refine ⟨?_, ?_, rfl, rfl, rfl⟩ <;> simp [admin_handle, hbad]

theorem admin_auth_gate_witness :
    admin_handle "secret" none AdminOp.clearAll
        (⟨[("k", ⟨7, 0, 86400⟩)], []⟩ : CacheState)
      = (⟨401, none, none⟩, ⟨[("k", ⟨7, 0, 86400⟩)], []⟩) :=
  (admin_auth_gate "secret" none ⟨[("k", ⟨7, 0, 86400⟩)], []⟩ "k" (by decide)).1

/-- C5.  Fallback admission window: with `window_ms = 60000` and `max = 2`,
three calls for the same identity, all before the window resets, decide
`[admit, admit, reject]`; the third call finds the stored count already at
the configured maximum (so `max - count = 0` requests remain) and carries a
positive retry-after equal to `ceil((reset_time - now) / 1000)`. -/
theorem fallback_admission_window (m : List (String × ClientData)) (ip : String)
    (t1 t2 t3 : Nat) (h0 : mapGet m ip = none)
    (h12 : t1 ≤ t2) (h23 : t2 ≤ t3) (h3 : t3 < t1 + 60000) :
    (fallback_rate_limit ⟨60000, 2⟩ m ip t1).1 = RateDecision.allow ∧
    (fallback_rate_limit ⟨60000, 2⟩
        (fallback_rate_limit ⟨60000, 2⟩ m ip t1).2 ip t2).1 = RateDecision.allow ∧
    mapGet (fallback_rate_limit ⟨60000, 2⟩
        (fallback_rate_limit ⟨60000, 2⟩ m ip t1).2 ip t2).2 ip
      = some ⟨2, t1 + 60000⟩ ∧
    (fallback_rate_limit ⟨60000, 2⟩
        (fallback_rate_limit ⟨60000, 2⟩
          (fallback_rate_limit ⟨60000, 2⟩ m ip t1).2 ip t2).2 ip t3).1
      = RateDecision.reject ((t1 + 60000 - t3 + 999) / 1000) ∧
    0 < (t1 + 60000 - t3 + 999) / 1000 := by
  have s1 : fallback_rate_limit ⟨60000, 2⟩ m ip t1
      = (RateDecision.allow, mapSet m ip ⟨1, t1 + 60000⟩) := by
    simp [fallback_rate_limit, h0]
  have hg1 : mapGet (mapSet m ip ⟨1, t1 + 60000⟩) ip = some ⟨1, t1 + 60000⟩ :=
    mapGet_mapSet_self m ip _
  have hn2 : ¬ (t2 > t1 + 60000) := by omega
  have s2 : fallback_rate_limit ⟨60000, 2⟩ (mapSet m ip ⟨1, t1 + 60000⟩) ip t2
      = (RateDecision.allow,
          mapSet (mapSet m ip ⟨1, t1 + 60000⟩) ip ⟨2, t1 + 60000⟩) := by
    simp [fallback_rate_limit, hg1, hn2]
  have hg2 : mapGet (mapSet (mapSet m ip ⟨1, t1 + 60000⟩) ip ⟨2, t1 + 60000⟩) ip
      = some ⟨2, t1 + 60000⟩ := mapGet_mapSet_self _ ip _
  have hn3 : ¬ (t3 > t1 + 60000) := by omega
  have s3 : fallback_rate_limit ⟨60000, 2⟩
        (mapSet (mapSet m ip ⟨1, t1 + 60000⟩) ip ⟨2, t1 + 60000⟩) ip t3
      = (RateDecision.reject ((t1 + 60000 - t3 + 999) / 1000),
          mapSet (mapSet m ip ⟨1, t1 + 60000⟩) ip ⟨2, t1 + 60000⟩) := by
    simp [fallback_rate_limit, hg2, hn3]
  have hpos : 0 < (t1 + 60000 - t3 + 999) / 1000 := by
    have : 1000 ≤ t1 + 60000 - t3 + 999 := by omega
    omega
  rw [s1]
  refine ⟨rfl, ?_, ?_, ?_, hpos⟩
  · rw [s2]
  · rw [s2]; exact hg2
  · rw [s2, s3]

theorem fallback_admission_window_witness :
    (fallback_rate_limit ⟨60000, 2⟩ [] "ip" 0).1 = RateDecision.allow ∧
    (fallback_rate_limit ⟨60000, 2⟩
        (fallback_rate_limit ⟨60000, 2⟩ [] "ip" 0).2 "ip" 1).1 = RateDecision.allow ∧
    mapGet (fallback_rate_limit ⟨60000, 2⟩
        (fallback_rate_limit ⟨60000, 2⟩ [] "ip" 0).2 "ip" 1).2 "ip"
      = some ⟨2, 60000⟩ ∧
    (fallback_rate_limit ⟨60000, 2⟩
        (fallback_rate_limit ⟨60000, 2⟩
          (fallback_rate_limit ⟨60000, 2⟩ [] "ip" 0).2 "ip" 1).2 "ip" 2).1
      = RateDecision.reject ((0 + 60000 - 2 + 999) / 1000) ∧
    0 < (0 + 60000 - 2 + 999) / 1000 :=
  fallback_admission_window [] "ip" 0 1 2 (by decide) (by decide) (by decide)
    (by decide)

/-- Preservation of the count bound by a single fallback-limiter call. -/
theorem fallback_step_bound (cfg : RateConfig) (h1 : 1 ≤ cfg.max_requests)
    (m : List (String × ClientData)) (ip : String) (now : Nat)
    (hm : ∀ k d, mapGet m k = some d → d.count ≤ cfg.max_requests) :
    ∀ k d, mapGet (fallback_rate_limit cfg m ip now).2 k = some d →
      d.count ≤ cfg.max_requests := by
  intro k d hd
  rcases hget : mapGet m ip with _ | d0
  · rw [fallback_rate_limit, hget] at hd
    simp only [mapGet_mapSet] at hd
    by_cases hik : ip = k
    · rw [if_pos hik] at hd
      injection hd with h2
      subst h2
      exact h1
    · rw [if_neg hik] at hd
      exact hm k d hd
  · rw [fallback_rate_limit, hget] at hd
    by_cases hr : now > d0.reset_time
    · simp only [if_pos hr, mapGet_mapSet] at hd
      by_cases hik : ip = k
      · rw [if_pos hik] at hd
        injection hd with h2
        subst h2
        exact h1
      · rw [if_neg hik] at hd
        exact hm k d hd
    · by_cases hmax : d0.count ≥ cfg.max_requests
      · simp only [if_neg hr, if_pos hmax] at hd
        exact hm k d hd
      · simp only [if_neg hr, if_neg hmax, mapGet_mapSet] at hd
        by_cases hik : ip = k
        · rw [if_pos hik] at hd
          injection hd with h2
          subst h2
          show d0.count + 1 ≤ cfg.max_requests
          omega
        · rw [if_neg hik] at hd
          exact hm k d hd

/-- C10.  Implicit — a rejecting fallback-limiter call leaves the per-identity
admission map unchanged; consequently, starting from any map whose counts
respect the configured maximum (with `max >= 1`), every sequence of calls
keeps every stored count at most the maximum. -/
theorem reject_preserves_admission_state :
    (∀ (cfg : RateConfig) (m : List (String × ClientData)) (ip : String)
        (now ra : Nat),
      (fallback_rate_limit cfg m ip now).1 = RateDecision.reject ra →
      (fallback_rate_limit cfg m ip now).2 = m) ∧
    (∀ (cfg : RateConfig), 1 ≤ cfg.max_requests →
      ∀ (calls : List (String × Nat)) (m0 : List (String × ClientData)),
        (∀ k d, mapGet m0 k = some d → d.count ≤ cfg.max_requests) →
        ∀ k d, mapGet (run_decides cfg calls m0) k = some d →
          d.count ≤ cfg.max_requests) := by
  constructor
  · intro cfg m ip now ra h
    rcases hget : mapGet m ip with _ | d0
    · rw [fallback_rate_limit, hget] at h ⊢
      simp at h
    · rw [fallback_rate_limit, hget] at h ⊢
      by_cases hr : now > d0.reset_time
      · simp [hr] at h
      · by_cases hmax : d0.count ≥ cfg.max_requests
        · simp [hr, hmax]
        · simp [hr, hmax] at h
  · intro cfg h1 calls
    induction calls with
    | nil => intro m0 hm0; simpa [run_decides] using hm0
    | cons c cs ih =>
      intro m0 hm0
      have hstep := fallback_step_bound cfg h1 m0 c.1 c.2 hm0
      simpa [run_decides] using ih (fallback_rate_limit cfg m0 c.1 c.2).2 hstep

theorem reject_preserves_admission_state_witness :
    (fallback_rate_limit ⟨60000, 1⟩ [("ip", ⟨1, 1000⟩)] "ip" 0).2
        = [("ip", ⟨1, 1000⟩)] ∧
    (⟨1, 60000⟩ : ClientData).count ≤ (⟨60000, 1⟩ : RateConfig).max_requests :=
  ⟨reject_preserves_admission_state.1 ⟨60000, 1⟩ [("ip", ⟨1, 1000⟩)] "ip" 0
      ((1000 - 0 + 999) / 1000) (by decide),
    reject_preserves_admission_state.2 ⟨60000, 1⟩ (by decide)
      [("ip", 0), ("ip", 1)] []
      (fun k d hd => by simp [mapGet] at hd)
      "ip" ⟨1, 60000⟩ (by decide)⟩

/-- Unfolding string concatenation to the underlying character lists. -/
theorem string_data_append (a b : String) : (a ++ b).data = a.data ++ b.data := rfl

/-- C9.  Key Builder non-injectivity: joining `(title, author, website,
theme)` with a plain `-` and no escaping is not injective — the distinct
tuples `("A-B", "C")` and `("A", "B-C")` produce the identical key — while
the specific probe inputs `("AB", "C")` and `("A", "BC")` do *not* collide,
whatever the remaining fields are (their boundary shift inserts no
separator-aligned characters). -/
theorem cache_key_collisions :
    (∃ t1 a1 t2 a2 : String, ∀ w th : String,
      (t1, a1) ≠ (t2, a2) ∧ cache_key t1 a1 w th = cache_key t2 a2 w th) ∧
    (∀ w th : String, cache_key "AB" "C" w th ≠ cache_key "A" "BC" w th) := by
  constructor
  · refine ⟨"A-B", "C", "A", "B-C", fun w th => ⟨by decide, ?_⟩⟩
    show ("A-B" ++ "-" ++ "C" ++ "-" ++ w ++ "-" ++ th : String)
      = "A" ++ "-" ++ "B-C" ++ "-" ++ w ++ "-" ++ th
    apply congrArg (· ++ th)
    apply congrArg (· ++ "-")
    apply congrArg (· ++ w)
    rfl
  · intro w th h
    have h2 := congrArg String.data h
    simp only [cache_key, string_data_append, List.append_assoc] at h2
    simp at h2

theorem cache_key_collisions_witness :
    cache_key "AB" "C" "example.com" "light"
      ≠ cache_key "A" "BC" "example.com" "light" :=
  cache_key_collisions.2 "example.com" "light"

/-! ### Lemmas about the sweeper's stable sort -/

/-- Ascending-timestamp ordering on fast-tier entries, the comparator of the
sweeper's sort. -/
def ts_le (a b : String × RamCacheEntry) : Prop :=
  a.2.timestamp ≤ b.2.timestamp

theorem sort_insert_perm (x : String × RamCacheEntry)
    (l : List (String × RamCacheEntry)) : (sort_insert x l).Perm (x :: l) := by
  induction l with
  | nil => simp [sort_insert]
  | cons y ys ih =>
    rw [sort_insert]
    by_cases h : x.2.timestamp ≤ y.2.timestamp
    · rw [if_pos h]
    · rw [if_neg h]
      exact (List.Perm.cons y ih).trans (List.Perm.swap x y ys)

theorem sort_by_timestamp_perm (l : List (String × RamCacheEntry)) :
    (sort_by_timestamp l).Perm l := by
  induction l with
  | nil => simp [sort_by_timestamp]
  | cons x xs ih => exact (sort_insert_perm x _).trans (List.Perm.cons x ih)

theorem pairwise_sort_insert (x : String × RamCacheEntry)
    (l : List (String × RamCacheEntry)) (h : l.Pairwise ts_le) :
    (sort_insert x l).Pairwise ts_le := by
  induction l with
  | nil => simp [sort_insert, ts_le]
  | cons y ys ih =>
    rw [sort_insert]
    rcases List.pairwise_cons.mp h with ⟨hy, hys⟩
    by_cases hxy : x.2.timestamp ≤ y.2.timestamp
    · rw [if_pos hxy]
      refine List.pairwise_cons.mpr ⟨?_, h⟩
      intro z hz
      rcases List.mem_cons.mp hz with rfl | hz'
      · exact hxy
      · exact le_trans hxy (hy z hz')
    · rw [if_neg hxy]
      refine List.pairwise_cons.mpr ⟨?_, ih hys⟩
      intro z hz
      rcases List.mem_cons.mp ((sort_insert_perm x ys).mem_iff.mp hz) with rfl | hz'
      · exact Nat.le_of_not_le hxy
      · exact hy z hz'

theorem pairwise_sort_by_timestamp (l : List (String × RamCacheEntry)) :
    (sort_by_timestamp l).Pairwise ts_le := by
  induction l with
  | nil => simp [sort_by_timestamp]
  | cons x xs ih => exact pairwise_sort_insert x _ ih

/-- In a list with pairwise-distinct keys, an element is determined by its
key. -/
theorem eq_of_mem_of_nodup_keys {β : Type} {l : List (String × β)}
    (h : (l.map Prod.fst).Nodup) {a b : String × β}
    (ha : a ∈ l) (hb : b ∈ l) (hk : a.1 = b.1) : a = b := by
  induction l with
  | nil => cases ha
  | cons p tl ih =>
    rw [List.map_cons] at h
    have h' := List.nodup_cons.mp h
    rcases List.mem_cons.mp ha with rfl | ha'
    · rcases List.mem_cons.mp hb with rfl | hb'
      · rfl
      · exact absurd (hk ▸ List.mem_map_of_mem Prod.fst hb') h'.1
    · rcases List.mem_cons.mp hb with rfl | hb'
      · exact absurd (hk ▸ List.mem_map_of_mem Prod.fst ha') h'.1
      · exact ih h'.2 ha' hb'

/-- C4.  Sweeper pass postcondition: one `cleanup_cache` run first removes
exactly the entries whose individual TTL has elapsed (`now - timestamp >
ttl*1000`), leaving `unexpired_entries`; if their number exceeds the
configured maximum it then deletes the `size - max` entries with the
smallest creation timestamps (the sort is stable, so insertion order breaks
timestamp ties), leaving exactly `min size max` entries, all unexpired, every
evicted entry no younger than every kept one; in particular with `max = 2`
and unexpired keys A, B, C inserted in that order (equal timestamps, so the
tie-break decides), one pass leaves exactly B and C. -/
theorem sweeper_pass (cfg : Config) (ram : List (String × RamCacheEntry)) (now : Nat)
    (hkeys : (ram.map Prod.fst).Nodup) :
    ((unexpired_entries ram now).length ≤ cfg.MAX_RAM_CACHE_SIZE →
      cleanup_cache cfg ram now = unexpired_entries ram now) ∧
    (cleanup_cache cfg ram now).length
      = min (unexpired_entries ram now).length cfg.MAX_RAM_CACHE_SIZE ∧
    (∀ q ∈ cleanup_cache cfg ram now, q ∈ unexpired_entries ram now) ∧
    (∀ q ∈ unexpired_entries ram now, q ∉ cleanup_cache cfg ram now →
      ∀ r ∈ cleanup_cache cfg ram now, q.2.timestamp ≤ r.2.timestamp) ∧
    cleanup_cache { MAX_RAM_CACHE_SIZE := 2 }
        [("A", ⟨10, 100, 86400⟩), ("B", ⟨11, 100, 86400⟩), ("C", ⟨12, 100, 86400⟩)]
        100
      = [("B", ⟨11, 100, 86400⟩), ("C", ⟨12, 100, 86400⟩)] := by
  set survivors := unexpired_entries ram now with hsurv
  have hsub : survivors.Sublist ram := List.filter_sublist ram
  have hkeyS : (survivors.map Prod.fst).Nodup :=
    List.Nodup.sublist (hsub.map Prod.fst) hkeys
  by_cases hc : survivors.length > cfg.MAX_RAM_CACHE_SIZE
  · -- over the bound: the eviction branch runs
    set n := survivors.length - cfg.MAX_RAM_CACHE_SIZE with hn
    set sorted := sort_by_timestamp survivors with hsorted
    set tr := sorted.take n with htr
    set dr := sorted.drop n with hdr
    have hperm : sorted.Perm survivors := sort_by_timestamp_perm survivors
    have hkeySorted : (sorted.map Prod.fst).Nodup :=
      ((hperm.map Prod.fst).nodup_iff).mpr hkeyS
    have hNodupSorted : sorted.Nodup := List.Nodup.of_map Prod.fst hkeySorted
    have hsplit : tr ++ dr = sorted := List.take_append_drop n sorted
    have hdisj : ∀ x ∈ tr, x ∉ dr := by
      have h2 : (tr ++ dr).Nodup := by rw [hsplit]; exact hNodupSorted
      exact fun x hx => (List.nodup_append.mp h2).2.2 hx
    have hclean : cleanup_cache cfg ram now
        = survivors.filter (fun p => !(tr.any (fun q => decide (q.1 = p.1)))) := by
      simp only [cleanup_cache]
      rw [if_pos hc]
    have hpr_tr : ∀ x ∈ tr, (!(tr.any (fun q => decide (q.1 = x.1)))) = false := by
      intro x hx
      simp only [Bool.not_eq_false']
      exact List.any_eq_true.mpr ⟨x, hx, by simp⟩
    have hpr_dr : ∀ x ∈ dr, (!(tr.any (fun q => decide (q.1 = x.1)))) = true := by
      intro x hx
      simp only [Bool.not_eq_true']
      apply List.any_eq_false.mpr
      intro q hq
      simp only [decide_eq_true_eq]
      intro hqk
      have hqS : q ∈ sorted := by rw [← hsplit]; exact List.mem_append_left _ hq
      have hxS : x ∈ sorted := by rw [← hsplit]; exact List.mem_append_right _ hx
      have : q = x := eq_of_mem_of_nodup_keys hkeySorted hqS hxS hqk
      exact hdisj x (this ▸ hq) hx
    have hfil : sorted.filter (fun p => !(tr.any (fun q => decide (q.1 = p.1)))) = dr := by
      rw [← hsplit, List.filter_append]
      rw [List.filter_eq_nil_iff.mpr (fun a ha => by simp [hpr_tr a ha]),
        List.filter_eq_self.mpr hpr_dr, List.nil_append]
    have hpermR : (survivors.filter (fun p => !(tr.any (fun q => decide (q.1 = p.1))))).Perm dr := by
      have h2 := hperm.filter (fun p => !(tr.any (fun q => decide (q.1 = p.1))))
      rw [hfil] at h2
      exact h2.symm
    have hlenR : (cleanup_cache cfg ram now).length = cfg.MAX_RAM_CACHE_SIZE := by
      rw [hclean, hpermR.length_eq, hdr, List.length_drop, hperm.length_eq]
      omega
    refine ⟨fun h => absurd h (by omega), ?_, ?_, ?_, by decide⟩
    · rw [hlenR]
      omega
    · intro q hq
      rw [hclean] at hq
      exact (List.mem_filter.mp hq).1
    · intro q hqS hqn r hr
      have hqtr : q ∈ tr := by
        have hq2 : q ∈ sorted := hperm.mem_iff.mpr hqS
        rcases List.mem_append.mp (by rw [hsplit]; exact hq2) with h | h
        · exact h
        · exact absurd (by rw [hclean]; exact List.mem_filter.mpr ⟨hqS, hpr_dr q h⟩) hqn
      have hrdr : r ∈ dr := by
        rw [hclean] at hr
        exact hpermR.mem_iff.mp hr
      have hpw : (tr ++ dr).Pairwise ts_le := by
        rw [hsplit]; exact pairwise_sort_by_timestamp survivors
      exact (List.pairwise_append.mp hpw).2.2 q hqtr r hrdr
  · -- within the bound: the pass only removes the expired entries
    have hclean : cleanup_cache cfg ram now = survivors := by
      simp only [cleanup_cache]
      rw [if_neg hc]
    refine ⟨fun _ => hclean, ?_, ?_, ?_, by decide⟩
    · rw [hclean, Nat.min_eq_left (by omega)]
    · intro q hq
      rw [hclean] at hq
      exact hq
    · intro q hqS hqn r hr
      exact absurd (hclean ▸ hqS) hqn

theorem sweeper_pass_witness :
    (cleanup_cache { MAX_RAM_CACHE_SIZE := 2 }
        [("A", ⟨10, 100, 86400⟩), ("B", ⟨11, 100, 86400⟩), ("C", ⟨12, 100, 86400⟩)]
        100).length = 2 :=
  (sweeper_pass { MAX_RAM_CACHE_SIZE := 2 }
    [("A", ⟨10, 100, 86400⟩), ("B", ⟨11, 100, 86400⟩), ("C", ⟨12, 100, 86400⟩)]
    100 (by decide)).2.1

end OgImageGen
